import Mathlib

/-!
Verification of the UltraStar TXT song parser (`song.hh` together with the
TXT parsing functions `txtParseField`, `txtParseHeader`, `txtParse` and
`txtParseNote`).

The embedding below is a shallow model of the C++ source:
* `std::string` lines are modelled as `List Char`;
* `double` time values are modelled as `ℚ`;
* C++ exceptions are modelled by `Except ParseErr`;
* the out-of-bounds dereference of a reverse iterator (undefined behaviour
  in C++) is modelled by the distinguished error `ParseErr.undefinedLookback`;
* the warning printed to standard output in the overlap-skip branch is
  modelled by appending the message to a `warnings` list in the parser state.

Parts of the repository that the claims depend on but whose sources are not
available (the `SongParser` member declarations, `SongParserUtil::assign`,
`addBPM`/`tsTime` of the timebase converter, and `notes.hh`) are modelled from
the specification; each such definition carries a doc comment saying so.
-/

/-- Note types of the TXT format.  Modelled from the spec: `notes.hh` is not
available; the spec fixes the set {NORMAL, FREESTYLE, GOLDEN, SLEEP}. -/
inductive NoteType where
  | NORMAL
  | FREESTYLE
  | GOLDEN
  | SLEEP
deriving DecidableEq

/-- A single musical/lyrical event.  Modelled from the spec: `notes.hh` is not
available.  `begin`/`end` are seconds (here `ℚ`), `note`/`notePrev` pitch
values, `lineBreak` the flag set retroactively on the note preceding a SLEEP. -/
structure Note where
  type : NoteType
  begin : ℚ
  end_ : ℚ
  note : ℤ
  notePrev : ℤ
  syllable : String
  lineBreak : Bool
deriving DecidableEq

/-- Named ordered sequence of notes plus derived pitch range.  Modelled from
the spec: `notes.hh` is not available. -/
structure VocalTrack where
  name : String
  notes : List Note
  noteMin : ℤ
  noteMax : ℤ
deriving DecidableEq

/-- Fresh track, as built by the `VocalTrack(name)` constructor.  Modelled from
the spec: the pitch range starts at the extreme int values so that min/max
tracking works. -/
def VocalTrack.init (n : String) : VocalTrack :=
  { name := n, notes := [], noteMin := 2147483647, noteMax := -2147483648 }

namespace TrackName

def LEAD_VOCAL : String := "Vocals"

end TrackName

/-- One tempo change-point of the timebase converter.  Modelled from the spec:
an ordered sequence of (tick, BPM) change-points, each carrying the
precomputed seconds-offset at which it takes effect. -/
structure BPM where
  ts : ℕ
  bpm : ℚ
  off : ℚ
deriving DecidableEq

/-- Seconds value of tick `t` relative to change-point `c`: the offset of the
change-point plus the elapsed ticks times 60 / (BPM × resolution), with the
fixed resolution 4 of the format.  Modelled from the spec. -/
def bpmStep (c : BPM) (t : ℕ) : ℚ :=
  c.off + ((t - c.ts : ℕ) : ℚ) * 60 / (c.bpm * 4)

/-- `addBPM(tick, bpm)` appends a tempo change; the running offset is advanced
using the previous BPM for the ticks elapsed since the last change-point.
Modelled from the spec: the implementation is not among the available
sources. -/
def addBPM (bpms : List BPM) (t : ℕ) (b : ℚ) : List BPM :=
  match bpms.getLast? with
  | none => [{ ts := t, bpm := b, off := 0 }]
  | some c => bpms ++ [{ ts := t, bpm := b, off := bpmStep c t }]

/-- `tsTime(tick)`: seconds at the last change-point at or before `tick`, plus
the ticks since then converted with that change-point's BPM; `0` when no
change-point lies at or before the tick.  Modelled from the spec. -/
def tsTime (bpms : List BPM) (t : ℕ) : ℚ :=
  match (bpms.filter (fun c => decide (c.ts ≤ t))).getLast? with
  | none => 0
  | some c => bpmStep c t

/-- Runs a whole sequence of `addBPM` calls from the empty timebase. -/
def runAddBPMs (calls : List (ℕ × ℚ)) : List BPM :=
  calls.foldl (fun st p => addBPM st p.1 p.2) []

/-- The ticks of a call sequence are non-decreasing. -/
def ticksNondecr : List (ℕ × ℚ) → Bool
  | [] => true
  | [_] => true
  | p :: q :: r => decide (p.1 ≤ q.1) && ticksNondecr (q :: r)

/-- Every BPM of a call sequence is positive. -/
def bpmsPositive : List (ℕ × ℚ) → Bool
  | [] => true
  | p :: r => decide (0 < p.2) && bpmsPositive r

/-- Errors of the parser.  Fatal C++ exceptions are the first seven
constructors; `undefinedLookback` models the undefined behaviour of
dereferencing `rend()` in the overlap-recovery lookback. -/
inductive ParseErr where
  | invalidFieldLine
  | valueOutOfRange
  | invalidFieldValue
  | missingHeaderFields
  | keyInNotes
  | invalidBpmLine
  | unknownNoteType
  | invalidNoteLine
  | firstNoteNegative
  | undefinedLookback
deriving DecidableEq

/-- Song aggregate fields populated by the TXT parser (`class Song`). -/
structure SongSt where
  path : String
  filename : String
  title : String
  artist : String
  edition : String
  genre : String
  creator : String
  language : String
  cover : String
  background : String
  video : String
  music : List (String × String)
  start : ℚ
  videoGap : ℚ
  preview_start : ℚ
  b0rkedTracks : Bool
  vocalTracks : List (String × VocalTrack)
deriving DecidableEq

/-- Parser-session state carried across line-decode calls.  The `m_` fields
are modelled from the spec: the `SongParser` member declarations are not
among the available sources (`m_prevts`: last resolved tick, `m_prevtime`:
last resolved end-time, `m_relative`: mode flag, `m_relativeShift`: running
offset accumulator, `m_bpm`/`m_gap`: header captures). -/
structure ParserSt where
  song : SongSt
  bpms : List BPM
  m_bpm : ℚ
  m_gap : ℚ
  m_relative : Bool
  m_relativeShift : ℕ
  m_prevts : ℕ
  m_prevtime : ℚ
  warnings : List String
deriving DecidableEq

/-- Remove the entry with the given key (`std::map::erase`). -/
def mapErase (m : List (String × VocalTrack)) (k : String) :
    List (String × VocalTrack) :=
  m.filter (fun p => decide (p.1 ≠ k))

/-- Insert keeping the key order (`std::map` is ordered by key). -/
def mapInsertSorted : List (String × VocalTrack) → String → VocalTrack →
    List (String × VocalTrack)
  | [], k, t => [(k, t)]
  | (k1, t1) :: r, k, t =>
    if k < k1 then (k, t) :: (k1, t1) :: r else (k1, t1) :: mapInsertSorted r k t

/-- Lookup by key (`std::map::find`). -/
def mapFind (m : List (String × VocalTrack)) (k : String) : Option VocalTrack :=
  match m with
  | [] => none
  | (k1, t) :: r => if k1 = k then some t else mapFind r k

/-- `Song::insertVocalTrack`: erase the key, then insert the new pair. -/
def insertVocalTrack (s : SongSt) (k : String) (t : VocalTrack) : SongSt :=
  { s with vocalTracks := mapInsertSorted (mapErase s.vocalTracks k) k t }

/-- The member `dummyVocal`, constructed as `VocalTrack(TrackName::LEAD_VOCAL)`
by both `Song` constructors and never written afterwards. -/
def dummyVocal : VocalTrack := VocalTrack.init TrackName.LEAD_VOCAL

/-- `Song::getVocalTrack`: the requested name, else `LEAD_VOCAL`, else the
first map entry, else the built-in dummy track. -/
def getVocalTrack (s : SongSt) (vocalTrack : String) : VocalTrack :=
  match mapFind s.vocalTracks vocalTrack with
  | some t => t
  | none =>
    match mapFind s.vocalTracks TrackName.LEAD_VOCAL with
    | some t => t
    | none =>
      match s.vocalTracks with
      | [] => dummyVocal
      | p :: _ => p.2

/-- The ordered-fallback chain in the words of the spec: exact name →
LEAD_VOCAL → first entry → builtin empty dummy. -/
def getVocalTrackSpec (s : SongSt) (vocalTrack : String) : VocalTrack :=
  (mapFind s.vocalTracks vocalTrack).getD
    ((mapFind s.vocalTracks TrackName.LEAD_VOCAL).getD
      (((s.vocalTracks.head?).map Prod.snd).getD dummyVocal))

/-- Assoc-list update used for `Song::music` (`std::map` subscript write). -/
def mapSetStr : List (String × String) → String → String → List (String × String)
  | [], k, v => [(k, v)]
  | (k1, v1) :: r, k, v =>
    if k1 = k then (k, v) :: r else (k1, v1) :: mapSetStr r k v

/-- Digit value of a character, `none` for non-digits. -/
def digitVal (c : Char) : Option ℕ :=
  if c = '0' then some 0
  else if c = '1' then some 1
  else if c = '2' then some 2
  else if c = '3' then some 3
  else if c = '4' then some 4
  else if c = '5' then some 5
  else if c = '6' then some 6
  else if c = '7' then some 7
  else if c = '8' then some 8
  else if c = '9' then some 9
  else none

/-- Split off the leading run of digits. -/
def digitSpan : List Char → List Char × List Char
  | [] => ([], [])
  | c :: r =>
    if (digitVal c).isSome then
      let p := digitSpan r
      (c :: p.1, p.2)
    else ([], c :: r)

/-- Decimal value of a digit string. -/
def digitsToNat (ds : List Char) : ℕ :=
  ds.foldl (fun acc c => acc * 10 + (digitVal c).getD 0) 0

/-- Fractional value of the digit string after a decimal point. -/
def fracOfDigits : List Char → ℚ
  | [] => 0
  | c :: r => (((digitVal c).getD 0 : ℚ) + fracOfDigits r) / 10

/-- Skip the whitespace an `istream` extraction skips. -/
def skipWs : List Char → List Char
  | [] => []
  | c :: r => if c.isWhitespace then skipWs r else c :: r

/-- Unsigned extraction without leading-whitespace skip. -/
def readNatNoWs (s : List Char) : Option (ℕ × List Char) :=
  match digitSpan s with
  | ([], _) => none
  | (ds, rest) => some (digitsToNat ds, rest)

/-- `istream >> unsigned`: skip whitespace, then read at least one digit. -/
def readNat (s : List Char) : Option (ℕ × List Char) :=
  readNatNoWs (skipWs s)

/-- `istream >> int`: skip whitespace, optional minus sign, digits. -/
def readInt (s : List Char) : Option (ℤ × List Char) :=
  match skipWs s with
  | '-' :: r => (readNatNoWs r).map (fun p => (-(p.1 : ℤ), p.2))
  | s1 => (readNatNoWs s1).map (fun p => ((p.1 : ℤ), p.2))

/-- Magnitude of a decimal number: digits with an optional fraction part. -/
def readRatMag (s : List Char) : Option (ℚ × List Char) :=
  match digitSpan s with
  | ([], _) => none
  | (ds, rest) =>
    match rest with
    | '.' :: r2 =>
      let p := digitSpan r2
      some ((digitsToNat ds : ℚ) + fracOfDigits p.1, p.2)
    | _ => some ((digitsToNat ds : ℚ), rest)

/-- `istream >> double` (no exponent forms, which the format does not use). -/
def readRat (s : List Char) : Option (ℚ × List Char) :=
  match skipWs s with
  | '-' :: r => (readRatMag r).map (fun p => (-p.1, p.2))
  | s1 => readRatMag s1

/-- Whole-string numeric parse.  Modelled from the spec:
`SongParserUtil::assign` is not among the available sources; malformed
numeric text is a fatal format error, so a partial parse yields `none`. -/
def parseRatAll (s : List Char) : Option ℚ :=
  match (match s with
         | '-' :: r => (readRatMag r).map (fun p : ℚ × List Char => (-p.1, p.2))
         | _ => readRatMag s) with
  | some (q, []) => some q
  | _ => none

/-- Boolean-ish flag parse for `RELATIVE`.  Modelled from the spec:
`SongParserUtil::assign` for `bool` is not among the available sources. -/
def parseBoolFlag (v : String) : Bool :=
  decide (v = "1" ∨ v = "YES" ∨ v = "yes")

/-- `boost::trim`: strip leading and trailing whitespace. -/
def trim (s : List Char) : List Char :=
  ((s.dropWhile Char.isWhitespace).reverse.dropWhile Char.isWhitespace).reverse

/-- Split a line at its first colon: chars before it and chars after it. -/
def splitAtColon : List Char → Option (List Char × List Char)
  | [] => none
  | c :: r =>
    if c = ':' then some ([], r)
    else (splitAtColon r).map (fun p => (c :: p.1, p.2))

/-- `value.substr(value.find_first_not_of(set))`: drop the longest leading run
of characters from `bad`; when every character is in `bad` the C++ `substr`
call raises `std::out_of_range`, modelled as `none`. -/
def dropLeadingOf (bad : List Char) : List Char → Option (List Char)
  | [] => none
  | c :: r => if c ∈ bad then dropLeadingOf bad r else some (c :: r)

/-- Field dispatch of `SongParser::txtParseField` after key/value splitting
(the `if key == ... else if ...` chain of the source). -/
def txtFieldDispatch (key : String) (value : List Char) (st : ParserSt) :
    Except ParseErr (Bool × ParserSt) :=
  if key = "TITLE" then
    match dropLeadingOf [' ', ':'] value with
    | none => .error .valueOutOfRange
    | some v => .ok (true, { st with song := { st.song with title := String.mk v } })
  else if key = "ARTIST" then
    match dropLeadingOf [' '] value with
    | none => .error .valueOutOfRange
    | some v => .ok (true, { st with song := { st.song with artist := String.mk v } })
  else if key = "EDITION" then
    match dropLeadingOf [' '] value with
    | none => .error .valueOutOfRange
    | some v => .ok (true, { st with song := { st.song with edition := String.mk v } })
  else if key = "GENRE" then
    match dropLeadingOf [' '] value with
    | none => .error .valueOutOfRange
    | some v => .ok (true, { st with song := { st.song with genre := String.mk v } })
  else if key = "CREATOR" then
    match dropLeadingOf [' '] value with
    | none => .error .valueOutOfRange
    | some v => .ok (true, { st with song := { st.song with creator := String.mk v } })
  else if key = "COVER" then
    .ok (true, { st with song := { st.song with cover := String.mk value } })
  else if key = "MP3" then
    .ok (true, { st with song := { st.song with
      music := mapSetStr st.song.music "background" (st.song.path ++ String.mk value) } })
  else if key = "VOCALS" then
    .ok (true, { st with song := { st.song with
      music := mapSetStr st.song.music "vocals" (st.song.path ++ String.mk value) } })
  else if key = "VIDEO" then
    .ok (true, { st with song := { st.song with video := String.mk value } })
  else if key = "BACKGROUND" then
    .ok (true, { st with song := { st.song with background := String.mk value } })
  else if key = "START" then
    match parseRatAll value with
    | none => .error .invalidFieldValue
    | some q => .ok (true, { st with song := { st.song with start := q } })
  else if key = "VIDEOGAP" then
    match parseRatAll value with
    | none => .error .invalidFieldValue
    | some q => .ok (true, { st with song := { st.song with videoGap := q } })
  else if key = "PREVIEWSTART" then
    match parseRatAll value with
    | none => .error .invalidFieldValue
    | some q => .ok (true, { st with song := { st.song with preview_start := q } })
  else if key = "RELATIVE" then
    .ok (true, { st with m_relative := parseBoolFlag (String.mk value) })
  else if key = "GAP" then
    match parseRatAll value with
    | none => .error .invalidFieldValue
    | some q => .ok (true, { st with m_gap := q * (1 / 1000) })
  else if key = "BPM" then
    match parseRatAll value with
    | none => .error .invalidFieldValue
    | some q => .ok (true, { st with m_bpm := q })
  else if key = "LANGUAGE" then
    match dropLeadingOf [' '] value with
    | none => .error .valueOutOfRange
    | some v => .ok (true, { st with song := { st.song with language := String.mk v } })
  else .ok (true, st)

/-- `SongParser::txtParseField`: classify one header line.  Returns the bool
the C++ function returns together with the updated state; fatal errors are
`Except.error`. -/
def txtParseField (line : List Char) (st : ParserSt) :
    Except ParseErr (Bool × ParserSt) :=
  if line = [] then .ok (true, st)
  else if line.head? ≠ some '#' then .ok (false, st)
  else
    match splitAtColon line with
    | none => .error .invalidFieldLine
    | some (pre, post) =>
      let key := String.mk (trim (pre.drop 1))
      let value := trim post
      if value = [] then .ok (true, st)
      else txtFieldDispatch key value st

/-- The header loop `while (getline(line) && txtParseField(line)) {}`: consume
lines while the field parser accepts them; returns the final state and, when
the loop was stopped by a non-header line, that line and the lines after it. -/
def headerLoop : List (List Char) → ParserSt →
    Except ParseErr (ParserSt × Option (List Char × List (List Char)))
  | [], st => .ok (st, none)
  | l :: ls, st =>
    match txtParseField l st with
    | .error e => .error e
    | .ok (cont, st1) =>
      if cont then headerLoop ls st1 else .ok (st1, some (l, ls))

/-- `SongParser::txtParseHeader`: run the field loop, require title and
artist, register a captured BPM at tick 0, insert the placeholder lead-vocal
track. -/
def txtParseHeader (lines : List (List Char)) (st : ParserSt) :
    Except ParseErr ParserSt :=
  match headerLoop lines st with
  | .error e => .error e
  | .ok (st1, _) =>
    if st1.song.title = "" ∨ st1.song.artist = "" then .error .missingHeaderFields
    else
      let st2 := if st1.m_bpm ≠ 0 then { st1 with bpms := addBPM st1.bpms 0 st1.m_bpm } else st1
      .ok { st2 with song := insertVocalTrack st2.song TrackName.LEAD_VOCAL
                       (VocalTrack.init TrackName.LEAD_VOCAL) }

/-- The fixed character-to-type mapping of the format.  Modelled from the
spec: the `Note::Type` codes live in `notes.hh`, which is not available; the
format-defined single-letter codes are used. -/
def charToType : Char → Option NoteType
  | ':' => some NoteType.NORMAL
  | 'F' => some NoteType.FREESTYLE
  | '*' => some NoteType.GOLDEN
  | '-' => some NoteType.SLEEP
  | _ => none

/-- Warning text of the overlap-skip branch. -/
def overlapMsg (s : SongSt) : String :=
  "Skipping overlapping note in " ++ s.path ++ s.filename

/-- Step 1 of overlap recovery for a previous SLEEP note: collapse it to zero
length at its own begin; when the note two positions back already ends before
the new begin, also snap the SLEEP to the new begin. -/
def collapseSleep (p p2 : Note) (nb : ℚ) : Note :=
  let p1 := { p with end_ := p.begin }
  if p2.end_ < nb then { p1 with begin := nb, end_ := nb } else p1

/-- The note two positions from the back, `none` when fewer than two notes
exist (the C++ dereferences `rend()` there). -/
def twoBack (ns : List Note) : Option Note :=
  if 2 ≤ ns.length then ns.get? (ns.length - 2) else none

/-- The previous note after the SLEEP-specific part of overlap recovery. -/
def adjustPrev (ns : List Note) (p : Note) (nb : ℚ) : Except ParseErr Note :=
  if p.type = NoteType.SLEEP then
    match twoBack ns with
    | none => .error .undefinedLookback
    | some p2 => .ok (collapseSleep p p2 nb)
  else .ok p

/-- The overlap block of `txtParseNote` (the body of `if (n.begin <
m_prevtime)`): adjust the previous note, then either trim it to the new begin
and proceed (`true`) or keep it and skip the new note (`false`); an empty note
sequence is the fatal first-note case. -/
def recoverOverlap (ns : List Note) (nb : ℚ) :
    Except ParseErr (List Note × Bool) :=
  match ns.getLast? with
  | none => .error .firstNoteNegative
  | some p =>
    match adjustPrev ns p nb with
    | .error e => .error e
    | .ok p1 =>
      if p1.begin ≤ nb then .ok (ns.dropLast ++ [{ p1 with end_ := nb }], true)
      else .ok (ns.dropLast ++ [p1], false)

/-- `notes.back().lineBreak = true`. -/
def setLastLineBreak (ns : List Note) : List Note :=
  match ns.getLast? with
  | none => ns
  | some p => ns.dropLast ++ [{ p with lineBreak := true }]

/-- Lines 273–312 of the source: the part of `txtParseNote` after the note
line has been decoded, taking the decoded note (with `end_` already resolved)
and the (possibly shifted) tick of the line. -/
def commitNote (n0 : Note) (ts : ℕ) (st0 : ParserSt) (vocal : VocalTrack) :
    Except ParseErr (Bool × ParserSt × VocalTrack) :=
  let n := { n0 with begin := tsTime st0.bpms ts }
  let st1 := if st0.m_relative = true ∧ vocal.notes = [] then
      { st0 with m_relativeShift := ts } else st0
  let st2 := { st1 with m_prevts := ts }
  match (if n.begin < st2.m_prevtime then recoverOverlap vocal.notes n.begin
         else .ok (vocal.notes, true)) with
  | .error e => .error e
  | .ok (ns1, proceed) =>
    if proceed = false then
      .ok (true, { st2 with warnings := st2.warnings ++ [overlapMsg st2.song] },
           { vocal with notes := ns1 })
    else
      let prevtime := st2.m_prevtime
      let st3 := { st2 with m_prevtime := n.end_ }
      let v1 := { vocal with notes := ns1 }
      let v2 := if n.type ≠ NoteType.SLEEP ∧ n.begin < n.end_ then
          { v1 with noteMin := min v1.noteMin n.note, noteMax := max v1.noteMax n.note }
        else v1
      if n.type = NoteType.SLEEP then
        if v2.notes = [] then .ok (true, st3, v2)
        else
          let ns2 := setLastLineBreak v2.notes ++ [{ n with begin := prevtime, end_ := prevtime }]
          .ok (true, st3, { v2 with notes := ns2 })
      else .ok (true, st3, { v2 with notes := v2.notes ++ [n] })

/-- The NORMAL/FREESTYLE/GOLDEN case of `txtParseNote`: read tick, length and
pitch, apply the relative shift to the tick, read the syllable, resolve the
end time, and commit. -/
def txtParseNormBody (t : NoteType) (rest : List Char) (st : ParserSt)
    (vocal : VocalTrack) : Except ParseErr (Bool × ParserSt × VocalTrack) :=
  match readNat rest with
  | none => .error .invalidNoteLine
  | some (ts0, r1) =>
    match readNat r1 with
    | none => .error .invalidNoteLine
    | some (len, r2) =>
      match readInt r2 with
      | none => .error .invalidNoteLine
      | some (pitch, r3) =>
        let ts := if st.m_relative then ts0 + st.m_relativeShift else ts0
        let syl := match r3 with
          | ' ' :: r => String.mk r
          | _ => ""
        commitNote { type := t, begin := 0, end_ := tsTime st.bpms (ts + len),
                     note := pitch, notePrev := pitch, syllable := syl,
                     lineBreak := false } ts st vocal

/-- The SLEEP case of `txtParseNote`: read tick and optional end tick (a
failed extraction leaves the target unchanged, so a missing end defaults to
the tick and a fully failed extraction keeps `m_prevts`), apply the relative
shift to both and re-anchor `m_relativeShift` to the shifted end, resolve the
end time, and commit. -/
def txtParseSleepBody (rest : List Char) (st : ParserSt) (vocal : VocalTrack) :
    Except ParseErr (Bool × ParserSt × VocalTrack) :=
  let p := match readNat rest with
    | none => (st.m_prevts, st.m_prevts)
    | some (a, r1) =>
      match readNat r1 with
      | none => (a, a)
      | some (b, _) => (a, b)
  let ts := if st.m_relative then p.1 + st.m_relativeShift else p.1
  let endT := if st.m_relative then p.2 + st.m_relativeShift else p.2
  let st1 := if st.m_relative then { st with m_relativeShift := endT } else st
  commitNote { type := NoteType.SLEEP, begin := 0, end_ := tsTime st1.bpms endT,
               note := 0, notePrev := 0, syllable := "", lineBreak := false }
    ts st1 vocal

/-- `SongParser::txtParseNote`: decode one body line, dispatching on its first
character, and update state and track. -/
def txtParseNote (line : List Char) (st : ParserSt) (vocal : VocalTrack) :
    Except ParseErr (Bool × ParserSt × VocalTrack) :=
  if line = [] ∨ line = ['\r'] then .ok (true, st, vocal)
  else if line.head? = some '#' then .error .keyInNotes
  else
    match (if line.getLast? = some '\r' then line.dropLast else line) with
    | [] => .error .unknownNoteType
    | c :: rest =>
      if c = 'E' then .ok (false, st, vocal)
      else if c = 'B' then
        match readNat rest with
        | none => .error .invalidBpmLine
        | some (ts, r1) =>
          match readRat r1 with
          | none => .error .invalidBpmLine
          | some (b, _) => .ok (true, { st with bpms := addBPM st.bpms ts b }, vocal)
      else if c = 'P' then .ok (true, st, vocal)
      else
        match charToType c with
        | none => .error .unknownNoteType
        | some t =>
          if t = NoteType.SLEEP then txtParseSleepBody rest st vocal
          else txtParseNormBody t rest st vocal

/-- The note loop `while (txtParseNote(line, vocal) && getline(line)) {}`. -/
def notesLoop : List (List Char) → List Char → ParserSt → VocalTrack →
    Except ParseErr (ParserSt × VocalTrack)
  | rest, cur, st, vocal =>
    match txtParseNote cur st vocal with
    | .error e => .error e
    | .ok (cont, st1, v1) =>
      if cont then
        match rest with
        | [] => .ok (st1, v1)
        | l :: ls => notesLoop ls l st1 v1
      else .ok (st1, v1)

/-- The terminator workaround at the end of `txtParse`: drop a trailing
non-SLEEP zero-length note. -/
def finalizeNotes (ns : List Note) : List Note :=
  match ns.getLast? with
  | none => ns
  | some p =>
    if p.type ≠ NoteType.SLEEP ∧ p.begin = p.end_ then ns.dropLast else ns

/-- `SongParser::txtParse`: re-run the header fields, register a captured BPM,
stream the note lines, apply the terminator workaround, and store the track. -/
def txtParse (lines : List (List Char)) (st : ParserSt) :
    Except ParseErr ParserSt :=
  match headerLoop lines st with
  | .error e => .error e
  | .ok (st1, restOpt) =>
    let st2 := if st1.m_bpm ≠ 0 then { st1 with bpms := addBPM st1.bpms 0 st1.m_bpm } else st1
    match (match restOpt with
           | none => Except.ok (st2, VocalTrack.init TrackName.LEAD_VOCAL)
           | some (l, ls) => notesLoop ls l st2 (VocalTrack.init TrackName.LEAD_VOCAL)) with
    | .error e => .error e
    | .ok (st3, v) =>
      .ok { st3 with song := insertVocalTrack st3.song TrackName.LEAD_VOCAL
                       { v with notes := finalizeNotes v.notes } }

/-- Invariant of the note sequence: the first note, when one exists, is never
a SLEEP (leading sleeps are dropped before being appended). -/
def noLeadingSleep : List Note → Bool
  | [] => true
  | n :: _ => decide (n.type ≠ NoteType.SLEEP)

/-- Baseline song value used for concrete instantiations. -/
def songW : SongSt :=
  { path := "songs/", filename := "a.txt", title := "", artist := "",
    edition := "", genre := "", creator := "", language := "", cover := "",
    background := "", video := "", music := [], start := 0, videoGap := 0,
    preview_start := 0, b0rkedTracks := false, vocalTracks := [] }

/-- Baseline parser state used for concrete instantiations. -/
def stW : ParserSt :=
  { song := songW, bpms := [], m_bpm := 0, m_gap := 0, m_relative := false,
    m_relativeShift := 0, m_prevts := 0, m_prevtime := 0, warnings := [] }

/-- Baseline empty lead-vocal track. -/
def vocalW : VocalTrack := VocalTrack.init TrackName.LEAD_VOCAL

/-- A zero-length NORMAL note used for concrete instantiations. -/
def noteZ : Note :=
  { type := NoteType.NORMAL, begin := 0, end_ := 0, note := 0, notePrev := 0,
    syllable := "", lineBreak := false }

/-- Concrete header state: title and artist present, BPM 120 captured. -/
def c8st : ParserSt :=
  { stW with song := { songW with title := "A", artist := "B" }, m_bpm := 120 }

/-- Result of header completion on `c8st` with no further lines. -/
def c8res : ParserSt := ((txtParseHeader [] c8st).toOption).getD c8st

/-- Invariant of the timebase state: `tsTime` is monotone, and the last
change-point has positive BPM and governs every tick at or after it. -/
def TimebaseInv (bpms : List BPM) : Prop :=
  (∀ a b : ℕ, a ≤ b → tsTime bpms a ≤ tsTime bpms b) ∧
  (∀ c, bpms.getLast? = some c →
    0 < c.bpm ∧ ∀ t, c.ts ≤ t → tsTime bpms t = bpmStep c t)

/-- Result-state projection of a parse step (the state on success, a default
on error). -/
def stepSt (r : Except ParseErr (Bool × ParserSt × VocalTrack)) (d : ParserSt) :
    ParserSt :=
  match r with
  | .ok (_, s, _) => s
  | .error _ => d

/-- Result-track projection of a parse step. -/
def stepVoc (r : Except ParseErr (Bool × ParserSt × VocalTrack))
    (d : VocalTrack) : VocalTrack :=
  match r with
  | .ok (_, _, v) => v
  | .error _ => d

/-- Continue flag of a parse step (false on error). -/
def stepCont (r : Except ParseErr (Bool × ParserSt × VocalTrack)) : Bool :=
  match r with
  | .ok (c, _, _) => c
  | .error _ => false

/-- Parser state with a 120 BPM change-point at tick 0 (as after a header
with `#BPM:120`). -/
def stR : ParserSt := { stW with bpms := [{ ts := 0, bpm := 120, off := 0 }] }

/-- First note line of the concrete overlap run. -/
def lineA : List Char := ": 0 4 0 a".toList

/-- Second note line of the concrete overlap run; its begin tick 2 lies
before the first note's end tick 4. -/
def lineB : List Char := ": 2 2 0 b".toList

/-- Third note line of the concrete overlap run; its begin tick 1 lies before
the (trimmed) second note's begin tick 2. -/
def lineC : List Char := ": 1 1 0 c".toList

def c1r1 : Except ParseErr (Bool × ParserSt × VocalTrack) :=
  txtParseNote lineA stR vocalW

def c1st1 : ParserSt := stepSt c1r1 stW

def c1v1 : VocalTrack := stepVoc c1r1 vocalW

def c1r2 : Except ParseErr (Bool × ParserSt × VocalTrack) :=
  txtParseNote lineB c1st1 c1v1

def c2r3 : Except ParseErr (Bool × ParserSt × VocalTrack) :=
  txtParseNote lineC (stepSt c1r2 stW) (stepVoc c1r2 vocalW)

/-- A SLEEP note value used for concrete instantiations. -/
def sleepZ : Note := { noteZ with type := NoteType.SLEEP }

/-- First line of the concrete leading-sleep run. -/
def lineD : List Char := "- 10 20".toList

/-- Second line of the concrete leading-sleep run: a SLEEP whose begin time 0
lies before the end-time resolved by the dropped first sleep. -/
def lineE : List Char := "- 0".toList

def c3r1 : Except ParseErr (Bool × ParserSt × VocalTrack) :=
  txtParseNote lineD stR vocalW

def c3r2 : Except ParseErr (Bool × ParserSt × VocalTrack) :=
  txtParseNote lineE (stepSt c3r1 stW) (stepVoc c3r1 vocalW)

/-- Relative-mode parser state at its initial shift. -/
def stC5 : ParserSt := { stW with m_relative := true }

/-- Safety of one parse step with respect to the two-back inspection: the
result is neither the modelled out-of-bounds dereference, nor a state whose
note sequence starts with a SLEEP. -/
def lookbackSafe (r : Except ParseErr (Bool × ParserSt × VocalTrack)) : Prop :=
  match r with
  | .error e => e ≠ ParseErr.undefinedLookback
  | .ok (_, _, v1) => noLeadingSleep v1.notes = true

/-- C7: classification of a single line by the field parser: a blank line is
accepted with no effect; a line not starting with the header marker makes the
parser return false without altering state; a marker line without a colon is
a fatal format error; a marker line whose value is empty after trimming is
accepted but sets no field. -/
theorem txtParseField_classify_c7 (st : ParserSt) :
    txtParseField [] st = .ok (true, st) ∧
    (∀ c rest, c ≠ '#' → txtParseField (c :: rest) st = .ok (false, st)) ∧
    (∀ line, line.head? = some '#' → splitAtColon line = none →
      txtParseField line st = .error .invalidFieldLine) ∧
    (∀ line pre post, line.head? = some '#' →
      splitAtColon line = some (pre, post) → trim post = [] →
      txtParseField line st = .ok (true, st)) := by
  refine ⟨rfl, ?_, ?_, ?_⟩
  · intro c rest hc
    simp [txtParseField, hc]
  · intro line hhead hsplit
    have hne : line ≠ [] := by
      intro h
      rw [h] at hhead
      exact Option.noConfusion hhead
    simp [txtParseField, hne, hhead, hsplit]
  · intro line pre post hhead hsplit hval
    have hne : line ≠ [] := by
      intro h
      rw [h] at hhead
      exact Option.noConfusion hhead
    simp [txtParseField, hne, hhead, hsplit, hval]

/-- C7 witness: the four cases at concrete lines. -/
theorem txtParseField_classify_c7_witness :
    txtParseField [] stW = .ok (true, stW) ∧
    txtParseField ('E' :: []) stW = .ok (false, stW) ∧
    txtParseField ("#FOO".toList) stW = .error .invalidFieldLine ∧
    txtParseField ("#A: ".toList) stW = .ok (true, stW) :=
  ⟨(txtParseField_classify_c7 stW).1,
   (txtParseField_classify_c7 stW).2.1 'E' [] (by decide),
   (txtParseField_classify_c7 stW).2.2.1 ("#FOO".toList) (by decide) (by decide),
   (txtParseField_classify_c7 stW).2.2.2 ("#A: ".toList) ['#', 'A'] [' ']
     (by decide) (by decide) (by decide)⟩

/-- C9: after the note stream completes, a trailing non-SLEEP note with equal
begin and end is removed; any other trailing note leaves the sequence
unchanged. -/
theorem finalizeNotes_last_c9 (ns : List Note) (p : Note)
    (h : ns.getLast? = some p) :
    ((p.type ≠ NoteType.SLEEP ∧ p.begin = p.end_) → finalizeNotes ns = ns.dropLast) ∧
    (¬(p.type ≠ NoteType.SLEEP ∧ p.begin = p.end_) → finalizeNotes ns = ns) := by
  unfold finalizeNotes
  rw [h]
  constructor
  · intro hc
    simp [hc]
  · intro hc
    simp [hc]

/-- C9 witness: a zero-length trailing NORMAL note is dropped. -/
theorem finalizeNotes_last_c9_witness :
    finalizeNotes [noteZ] = List.dropLast [noteZ] :=
  (finalizeNotes_last_c9 [noteZ] noteZ (by decide)).1 (by decide)

/-- C10: `getVocalTrack` realises the ordered fallback chain of the spec:
the requested name when present, else the LEAD_VOCAL track when present, else
the first map entry when the map is non-empty, else the built-in dummy. -/
theorem getVocalTrack_chain_c10 (s : SongSt) (name : String) :
    getVocalTrack s name = getVocalTrackSpec s name ∧
    (∀ t, mapFind s.vocalTracks name = some t → getVocalTrack s name = t) ∧
    (mapFind s.vocalTracks name = none →
      ∀ t, mapFind s.vocalTracks TrackName.LEAD_VOCAL = some t →
        getVocalTrack s name = t) ∧
    (mapFind s.vocalTracks name = none →
      mapFind s.vocalTracks TrackName.LEAD_VOCAL = none →
      ∀ p r, s.vocalTracks = p :: r → getVocalTrack s name = p.2) ∧
    (s.vocalTracks = [] → getVocalTrack s name = dummyVocal) := by
  refine ⟨?_, ?_, ?_, ?_, ?_⟩
  · unfold getVocalTrack getVocalTrackSpec
    cases h1 : mapFind s.vocalTracks name
    · cases h2 : mapFind s.vocalTracks TrackName.LEAD_VOCAL
      · cases h3 : s.vocalTracks <;> simp [h3]
      · simp
    · simp
  · intro t h1
    unfold getVocalTrack
    rw [h1]
  · intro h1 t h2
    unfold getVocalTrack
    rw [h1, h2]
  · intro h1 h2 p r h3
    unfold getVocalTrack
    rw [h1, h2, h3]
  · intro h
    unfold getVocalTrack
    rw [h]
    simp [mapFind]

/-- C10 witness: exact-name lookup on a one-entry map. -/
theorem getVocalTrack_chain_c10_witness :
    getVocalTrack { songW with vocalTracks := [("Alto", VocalTrack.init "Alto")] } "Alto" =
      VocalTrack.init "Alto" :=
  (getVocalTrack_chain_c10
      { songW with vocalTracks := [("Alto", VocalTrack.init "Alto")] } "Alto").2.1
    (VocalTrack.init "Alto") (by decide)

theorem mapFind_insertSorted_self (m : List (String × VocalTrack)) (k : String)
    (t : VocalTrack) (h : ∀ p ∈ m, p.1 ≠ k) :
    mapFind (mapInsertSorted m k t) k = some t := by
  induction m with
  | nil => simp [mapInsertSorted, mapFind]
  | cons q r ih =>
    obtain ⟨k1, t1⟩ := q
    have hk1 : k1 ≠ k := h (k1, t1) (List.mem_cons_self _ _)
    by_cases hlt : k < k1
    · simp [mapInsertSorted, hlt, mapFind]
    · simp only [mapInsertSorted, if_neg hlt, mapFind]
      rw [if_neg hk1]
      exact ih (fun p hp => h p (List.mem_cons_of_mem _ hp))

theorem mapFind_insertVocalTrack (s : SongSt) (k : String) (t : VocalTrack) :
    mapFind (insertVocalTrack s k t).vocalTracks k = some t := by
  apply mapFind_insertSorted_self
  intro p hp
  have := List.mem_filter.mp hp
  simpa using this.2

/-- C8: after the header field stream ends, header parsing raises the fatal
missing-fields error iff title or artist is still empty; on success a captured
BPM is registered at tick 0 and the placeholder lead-vocal track is present. -/
theorem txtParseHeader_completion_c8 (lines : List (List Char))
    (st st1 : ParserSt) (rest : Option (List Char × List (List Char)))
    (hloop : headerLoop lines st = .ok (st1, rest)) :
    (txtParseHeader lines st = .error .missingHeaderFields ↔
      (st1.song.title = "" ∨ st1.song.artist = "")) ∧
    (∀ st2, txtParseHeader lines st = .ok st2 →
      st2.bpms = (if st1.m_bpm ≠ 0 then addBPM st1.bpms 0 st1.m_bpm else st1.bpms) ∧
      mapFind st2.song.vocalTracks TrackName.LEAD_VOCAL =
        some (VocalTrack.init TrackName.LEAD_VOCAL)) := by
  simp only [txtParseHeader, hloop]
  by_cases h : st1.song.title = "" ∨ st1.song.artist = ""
  · rw [if_pos h]
    exact ⟨⟨fun _ => h, fun _ => rfl⟩, fun st2 heq => Except.noConfusion heq⟩
  · rw [if_neg h]
    constructor
    · exact ⟨fun heq => Except.noConfusion heq, fun hc => absurd hc h⟩
    · intro st2 heq
      have h2 := Except.ok.inj heq
      subst h2
      constructor
      · by_cases hb : st1.m_bpm ≠ 0 <;> simp [hb]
      · exact mapFind_insertVocalTrack _ _ _

/-- C8 witness: header completion at a concrete state. -/
theorem txtParseHeader_completion_c8_witness :
    (txtParseHeader [] c8st = .error .missingHeaderFields ↔
      (c8st.song.title = "" ∨ c8st.song.artist = "")) ∧
    (c8res.bpms = (if c8st.m_bpm ≠ 0 then addBPM c8st.bpms 0 c8st.m_bpm else c8st.bpms) ∧
      mapFind c8res.song.vocalTracks TrackName.LEAD_VOCAL =
        some (VocalTrack.init TrackName.LEAD_VOCAL)) :=
  ⟨(txtParseHeader_completion_c8 [] c8st c8st none rfl).1,
   (txtParseHeader_completion_c8 [] c8st c8st none rfl).2 c8res rfl⟩

theorem tsTime_concat (l : List BPM) (c : BPM) (t : ℕ) :
    tsTime (l ++ [c]) t = if c.ts ≤ t then bpmStep c t else tsTime l t := by
  unfold tsTime
  rw [List.filter_append]
  by_cases h : c.ts ≤ t
  · rw [if_pos h]
    simp only [List.filter, decide_eq_true h]
    rw [List.getLast?_concat]
  · rw [if_neg h]
    simp only [List.filter, decide_eq_false h]
    rw [List.append_nil]

theorem bpmStep_mono {c : BPM} (hb : 0 < c.bpm) {a b : ℕ}
    (hab : a ≤ b) : bpmStep c a ≤ bpmStep c b := by
  unfold bpmStep
  have h2 : (0:ℚ) < c.bpm * 4 := by positivity
  gcongr

theorem off_le_bpmStep {c : BPM} (hb : 0 < c.bpm) (x : ℕ) : c.off ≤ bpmStep c x := by
  unfold bpmStep
  have h1 : (0:ℚ) ≤ ((x - c.ts : ℕ) : ℚ) * 60 / (c.bpm * 4) := by positivity
  linarith

theorem timebaseInv_nil : TimebaseInv [] := by
  constructor
  · intro a b _
    exact le_refl 0
  · intro c hc
    exact Option.noConfusion hc

theorem timebaseInv_concat (st : List BPM) (c : BPM) (hb : 0 < c.bpm)
    (hmono : ∀ a b : ℕ, a ≤ b → tsTime st a ≤ tsTime st b)
    (hoff : tsTime st c.ts = c.off) :
    TimebaseInv (st ++ [c]) := by
  constructor
  · intro a b hab
    rw [tsTime_concat, tsTime_concat]
    by_cases h1 : c.ts ≤ a
    · rw [if_pos h1, if_pos (h1.trans hab)]
      exact bpmStep_mono hb hab
    · rw [if_neg h1]
      by_cases h2 : c.ts ≤ b
      · rw [if_pos h2]
        calc tsTime st a ≤ tsTime st c.ts := hmono a c.ts (le_of_not_le h1)
        _ = c.off := hoff
        _ ≤ bpmStep c b := off_le_bpmStep hb b
      · rw [if_neg h2]
        exact hmono a b hab
  · intro c2 hc2
    rw [List.getLast?_concat] at hc2
    obtain rfl : c = c2 := Option.some.inj hc2
    refine ⟨hb, fun t ht => ?_⟩
    rw [tsTime_concat, if_pos ht]

theorem timebaseInv_addBPM (st : List BPM) (t : ℕ) (b : ℚ) (hb : 0 < b)
    (hts : ∀ c, st.getLast? = some c → c.ts ≤ t) (hinv : TimebaseInv st) :
    TimebaseInv (addBPM st t b) := by
  unfold addBPM
  cases hlast : st.getLast? with
  | none =>
    obtain rfl : st = [] := List.getLast?_eq_none_iff.mp hlast
    have h := timebaseInv_concat [] { ts := t, bpm := b, off := 0 } hb
      (fun a b _ => le_refl 0) rfl
    simpa using h
  | some clast =>
    refine timebaseInv_concat st _ hb hinv.1 ?_
    exact ((hinv.2 clast hlast).2 t (hts clast hlast))

theorem timebaseInv_runAux (calls : List (ℕ × ℚ)) :
    ∀ st : List BPM, TimebaseInv st →
      bpmsPositive calls = true →
      ticksNondecr calls = true →
      (∀ c, st.getLast? = some c → ∀ p, calls.head? = some p → c.ts ≤ p.1) →
      TimebaseInv (calls.foldl (fun s p => addBPM s p.1 p.2) st) := by
  induction calls with
  | nil =>
    intro st hinv _ _ _
    exact hinv
  | cons q rest ih =>
    intro st hinv hpos hnd hts
    obtain ⟨t, b⟩ := q
    have hposq : 0 < b ∧ bpmsPositive rest = true := by
      simpa [bpmsPositive] using hpos
    have hstep : TimebaseInv (addBPM st t b) :=
      timebaseInv_addBPM st t b hposq.1
        (fun c hc => hts c hc (t, b) rfl) hinv
    have hndrest : ticksNondecr rest = true := by
      cases rest with
      | nil => rfl
      | cons q2 r2 => simpa [ticksNondecr] using (by simpa [ticksNondecr] using hnd : _ ∧ _).2
    have hlast : ∃ o, (addBPM st t b).getLast? = some { ts := t, bpm := b, off := o } := by
      unfold addBPM
      cases hl : st.getLast? with
      | none => exact ⟨0, rfl⟩
      | some c => exact ⟨bpmStep c t, List.getLast?_concat st⟩
    obtain ⟨o, hlast⟩ := hlast
    refine ih (addBPM st t b) hstep hposq.2 hndrest ?_
    intro c hc p hp
    rw [hlast] at hc
    obtain rfl := Option.some.inj hc
    cases rest with
    | nil => exact Option.noConfusion hp
    | cons q2 r2 =>
      have hq : q2 = p := Option.some.inj hp
      have h5 : t ≤ q2.1 ∧ ticksNondecr (q2 :: r2) = true := by
        simpa [ticksNondecr] using hnd
      rw [← hq]
      exact h5.1

/-- C4: for any sequence of `addBPM` calls with non-decreasing ticks and
positive BPM, `tsTime` over the resulting timebase is monotone, and with no
BPM registered `tsTime` at tick 0 is 0. -/
theorem tsTime_monotonic_c4 (calls : List (ℕ × ℚ))
    (hpos : bpmsPositive calls = true) (hnd : ticksNondecr calls = true) :
    (∀ a b : ℕ, a ≤ b → tsTime (runAddBPMs calls) a ≤ tsTime (runAddBPMs calls) b) ∧
    tsTime (runAddBPMs []) 0 = 0 := by
  refine ⟨?_, rfl⟩
  have h := timebaseInv_runAux calls [] timebaseInv_nil hpos hnd
    (fun c hc => Option.noConfusion hc)
  exact h.1

/-- C4 witness: the monotonicity at a concrete call sequence and tick pair. -/
theorem tsTime_monotonic_c4_witness :
    tsTime (runAddBPMs [(0, 120), (16, 240)]) 8 ≤
      tsTime (runAddBPMs [(0, 120), (16, 240)]) 20 :=
  (tsTime_monotonic_c4 [(0, 120), (16, 240)] (by decide) (by decide)).1 8 20 (by decide)

theorem recoverOverlap_trim (ns : List Note) (p p1 : Note) (nb : ℚ)
    (hp : ns.getLast? = some p) (hadj : adjustPrev ns p nb = .ok p1)
    (hle : p1.begin ≤ nb) :
    recoverOverlap ns nb = .ok (ns.dropLast ++ [{ p1 with end_ := nb }], true) := by
  simp only [recoverOverlap, hp, hadj]
  rw [if_pos hle]

theorem recoverOverlap_skip (ns : List Note) (p p1 : Note) (nb : ℚ)
    (hp : ns.getLast? = some p) (hadj : adjustPrev ns p nb = .ok p1)
    (hgt : ¬ p1.begin ≤ nb) :
    recoverOverlap ns nb = .ok (ns.dropLast ++ [p1], false) := by
  simp only [recoverOverlap, hp, hadj]
  rw [if_neg hgt]

theorem setLastLineBreak_concat (l : List Note) (x : Note) :
    setLastLineBreak (l ++ [x]) = l ++ [{ x with lineBreak := true }] := by
  simp [setLastLineBreak, List.getLast?_concat, List.dropLast_concat]

/-- C1 (amended): when a parsed note begins before the previously resolved
end-time and the previous note (after the SLEEP adjustment) begins at or
before the new begin, the previous note's end is shortened to the new begin,
no fatal error is raised, parsing continues, and `b0rkedTracks` is left
unchanged (the parser never sets it). -/
theorem overlap_trim_c1 (st : ParserSt) (vocal : VocalTrack) (n0 : Note)
    (ts : ℕ) (p p1 : Note)
    (hp : vocal.notes.getLast? = some p)
    (hb : tsTime st.bpms ts < st.m_prevtime)
    (hadj : adjustPrev vocal.notes p (tsTime st.bpms ts) = .ok p1)
    (hle : p1.begin ≤ tsTime st.bpms ts) :
    ∃ st1 v1 q, commitNote n0 ts st vocal = .ok (true, st1, v1) ∧
      v1.notes[vocal.notes.length - 1]? = some q ∧
      q.begin = p1.begin ∧ q.end_ = tsTime st.bpms ts ∧
      v1.notes.length = vocal.notes.length + 1 ∧
      st1.song.b0rkedTracks = st.song.b0rkedTracks := by
  have hne : vocal.notes ≠ [] := by
    intro h
    rw [h] at hp
    exact Option.noConfusion hp
  have hseed : ¬ (st.m_relative = true ∧ vocal.notes = []) := fun h => hne h.2
  have hro := recoverOverlap_trim vocal.notes p p1 (tsTime st.bpms ts) hp hadj hle
  have hlen : vocal.notes.dropLast.length = vocal.notes.length - 1 :=
    List.length_dropLast vocal.notes
  have hpos : 0 < vocal.notes.length := List.length_pos.mpr hne
  have hmid : ∀ (x y : Note),
      ((vocal.notes.dropLast ++ [x]) ++ [y])[vocal.notes.length - 1]? = some x := by
    intro x y
    rw [← hlen, List.getElem?_append_left (by simp), List.getElem?_concat_length]
  have hmidlen : ∀ (x y : Note),
      ((vocal.notes.dropLast ++ [x]) ++ [y]).length = vocal.notes.length + 1 := by
    intro x y
    simp [hlen]
    omega
  by_cases hsl : n0.type = NoteType.SLEEP
  · simp only [commitNote, hseed, if_false, hb, if_true, hro, hsl]
    simp only [Bool.true_eq_false, ne_eq, not_true_eq_false, false_and, if_false,
      List.append_eq_nil, List.cons_ne_nil, and_false]
    rw [setLastLineBreak_concat]
    exact ⟨_, _, _, rfl, hmid _ _, rfl, rfl, hmidlen _ _, rfl⟩
  · simp only [commitNote, hseed, if_false, hb, if_true, hro, hsl]
    simp only [Bool.true_eq_false, ne_eq, if_false, not_false_eq_true, true_and]
    simp only [apply_ite VocalTrack.notes, ite_self]
    exact ⟨_, _, _, rfl, hmid _ _, rfl, rfl, hmidlen _ _, rfl⟩

/-- C1 witness: the amended overlap-trim behaviour at a concrete input. -/
theorem overlap_trim_c1_witness :
    ∃ st1 v1 q, commitNote noteZ 2 { stW with m_prevtime := 3 }
        { vocalW with notes := [{ noteZ with end_ := 3 }] } = .ok (true, st1, v1) ∧
      v1.notes[0]? = some q ∧
      q.begin = 0 ∧ q.end_ = 0 ∧
      v1.notes.length = 2 ∧
      st1.song.b0rkedTracks = stW.song.b0rkedTracks :=
  overlap_trim_c1 { stW with m_prevtime := 3 }
    { vocalW with notes := [{ noteZ with end_ := 3 }] } noteZ 2
    { noteZ with end_ := 3 } { noteZ with end_ := 3 }
    rfl (by decide) rfl (by decide)

/-- C1 counterexample: a concrete two-line run where the overlap-trim
conditions of the claim hold, the trim happens and parsing continues, but
`b0rkedTracks` stays false (the claim says it becomes true). -/
theorem overlap_trim_c1_counterexample :
    stepCont c1r1 = true ∧ stepCont c1r2 = true ∧
    tsTime c1st1.bpms 2 < c1st1.m_prevtime ∧
    (c1v1.notes.getLast?).map Note.begin = some 0 ∧
    ((stepVoc c1r2 vocalW).notes[0]?).map Note.end_ = some (tsTime c1st1.bpms 2) ∧
    (stepSt c1r2 stW).song.b0rkedTracks = false := by
  norm_num +decide [c1r1, c1r2, c1st1, c1v1, lineA, lineB, stR, stW, songW,
    vocalW, VocalTrack.init, TrackName.LEAD_VOCAL, txtParseNote,
    txtParseNormBody, commitNote, recoverOverlap, adjustPrev, collapseSleep,
    twoBack, tsTime, bpmStep, addBPM, readNat, readNatNoWs, readInt, digitSpan,
    digitsToNat, digitVal, skipWs, charToType, stepSt, stepVoc, stepCont,
    setLastLineBreak, overlapMsg]

theorem recoverOverlap_nil (nb : ℚ) :
    recoverOverlap [] nb = .error .firstNoteNegative := rfl

/-- C2 (amended): when a parsed note begins before the previously resolved
end-time and the previous note (after the SLEEP adjustment) begins after the
new begin, the new note is discarded, a warning naming the song path and
filename is recorded, parsing continues with the note count unchanged, and
`b0rkedTracks` is left unchanged (the parser never sets it); when the note
sequence is empty the condition is the fatal first-note error. -/
theorem overlap_skip_c2 (st : ParserSt) (vocal : VocalTrack) (n0 : Note)
    (ts : ℕ) (hb : tsTime st.bpms ts < st.m_prevtime) :
    (vocal.notes = [] → commitNote n0 ts st vocal = .error .firstNoteNegative) ∧
    (∀ p p1, vocal.notes.getLast? = some p →
      adjustPrev vocal.notes p (tsTime st.bpms ts) = .ok p1 →
      ¬ p1.begin ≤ tsTime st.bpms ts →
      ∃ st1 v1, commitNote n0 ts st vocal = .ok (true, st1, v1) ∧
        v1.notes.length = vocal.notes.length ∧
        st1.warnings = st.warnings ++ [overlapMsg st.song] ∧
        st1.song.b0rkedTracks = st.song.b0rkedTracks) := by
  constructor
  · intro hvn
    simp only [commitNote, hvn, and_true, apply_ite ParserSt.m_prevtime,
      ite_self, hb, if_true, recoverOverlap_nil]
  · intro p p1 hp hadj hgt
    have hne : vocal.notes ≠ [] := by
      intro h
      rw [h] at hp
      exact Option.noConfusion hp
    have hseed : ¬ (st.m_relative = true ∧ vocal.notes = []) := fun h => hne h.2
    have hro := recoverOverlap_skip vocal.notes p p1 (tsTime st.bpms ts) hp hadj hgt
    have hlen : vocal.notes.dropLast.length = vocal.notes.length - 1 :=
      List.length_dropLast vocal.notes
    have hpos : 0 < vocal.notes.length := List.length_pos.mpr hne
    simp only [commitNote, hseed, if_false, hb, if_true, hro]
    refine ⟨_, _, rfl, ?_, rfl, rfl⟩
    simp [hlen]
    omega

/-- C2 witness: both parts of the claim at concrete inputs. -/
theorem overlap_skip_c2_witness :
    (commitNote noteZ 2 { stW with m_prevtime := 3 } vocalW =
      .error .firstNoteNegative) ∧
    (∃ st1 v1, commitNote noteZ 2 { stW with m_prevtime := 3 }
        { vocalW with notes := [{ noteZ with begin := 2, end_ := 3 }] } =
        .ok (true, st1, v1) ∧
      v1.notes.length = 1 ∧
      st1.warnings = stW.warnings ++ [overlapMsg stW.song] ∧
      st1.song.b0rkedTracks = stW.song.b0rkedTracks) :=
  ⟨(overlap_skip_c2 { stW with m_prevtime := 3 } vocalW noteZ 2 (by decide)).1 rfl,
   (overlap_skip_c2 { stW with m_prevtime := 3 }
      { vocalW with notes := [{ noteZ with begin := 2, end_ := 3 }] } noteZ 2
      (by decide)).2
     { noteZ with begin := 2, end_ := 3 } { noteZ with begin := 2, end_ := 3 }
     rfl rfl (by decide)⟩

/-- C2 counterexample: a concrete three-line run reaching the skip branch: the
note is discarded with a warning and parsing continues, but the sticky
malformed-input flag `b0rkedTracks` stays false (the claim says it is set). -/
theorem overlap_skip_c2_counterexample :
    stepCont c2r3 = true ∧
    (stepVoc c2r3 vocalW).notes.length = (stepVoc c1r2 vocalW).notes.length ∧
    (stepSt c2r3 stW).warnings = [overlapMsg songW] ∧
    (stepSt c2r3 stW).song.b0rkedTracks = false := by
  norm_num +decide [c2r3, c1r1, c1r2, c1st1, c1v1, lineA, lineB, lineC, stR,
    stW, songW, vocalW, VocalTrack.init, TrackName.LEAD_VOCAL, txtParseNote,
    txtParseNormBody, commitNote, recoverOverlap, adjustPrev, collapseSleep,
    twoBack, tsTime, bpmStep, addBPM, readNat, readNatNoWs, readInt, digitSpan,
    digitsToNat, digitVal, skipWs, charToType, stepSt, stepVoc, stepCont,
    setLastLineBreak, overlapMsg]

theorem setLastLineBreak_getLast (ns : List Note) (pl : Note)
    (h : ns.getLast? = some pl) :
    setLastLineBreak ns = ns.dropLast ++ [{ pl with lineBreak := true }] := by
  simp [setLastLineBreak, h]

/-- C3 (amended): a SLEEP with an empty note sequence and no overlap is
dropped (the track is unchanged; with an overlap the empty sequence is the
fatal first-note case instead); any appended SLEEP has both begin and end
forced to the previously resolved end-time and the preceding note gets
`lineBreak := true`. -/
theorem sleep_normalize_c3 (st : ParserSt) (vocal : VocalTrack) (n0 : Note)
    (ts : ℕ) (hsl : n0.type = NoteType.SLEEP) :
    (vocal.notes = [] → ¬ tsTime st.bpms ts < st.m_prevtime →
      ∃ st1, commitNote n0 ts st vocal = .ok (true, st1, vocal)) ∧
    (∀ ns1, (if tsTime st.bpms ts < st.m_prevtime
             then recoverOverlap vocal.notes (tsTime st.bpms ts)
             else .ok (vocal.notes, true)) = .ok (ns1, true) →
      ns1 ≠ [] →
      ∃ st1 v1, commitNote n0 ts st vocal = .ok (true, st1, v1) ∧
        v1.notes = setLastLineBreak ns1 ++
          [{ n0 with begin := st.m_prevtime, end_ := st.m_prevtime }] ∧
        v1.notes.getLast? =
          some { n0 with begin := st.m_prevtime, end_ := st.m_prevtime } ∧
        (∀ pl, ns1.getLast? = some pl →
          v1.notes[v1.notes.length - 2]? = some { pl with lineBreak := true })) := by
  constructor
  · intro hvn hnov
    simp only [commitNote, and_true, apply_ite ParserSt.m_prevtime,
      ite_self, hnov, if_false, hsl]
    simp only [Bool.true_eq_false, ne_eq, not_true_eq_false, false_and, if_false,
      reduceIte]
    rw [if_pos hvn]
    exact ⟨_, rfl⟩
  · intro ns1 hro hns1
    have hvn : vocal.notes ≠ [] := by
      intro hh
      rw [hh] at hro
      by_cases hov : tsTime st.bpms ts < st.m_prevtime
      · rw [if_pos hov, recoverOverlap_nil] at hro
        exact Except.noConfusion hro
      · rw [if_neg hov] at hro
        obtain ⟨h1, _⟩ := Prod.mk.injEq .. ▸ Except.ok.inj hro
        exact hns1 h1.symm
    have hseed : ¬ (st.m_relative = true ∧ vocal.notes = []) := fun h => hvn h.2
    obtain ⟨pl, hpl⟩ : ∃ pl, ns1.getLast? = some pl := by
      cases hl : ns1.getLast? with
      | none => exact absurd (List.getLast?_eq_none_iff.mp hl) hns1
      | some x => exact ⟨x, rfl⟩
    have hsll := setLastLineBreak_getLast ns1 pl hpl
    have hlen1 : ns1.dropLast.length = ns1.length - 1 := List.length_dropLast ns1
    have hpos1 : 0 < ns1.length := List.length_pos.mpr hns1
    simp only [commitNote, hseed, if_false, hro, hsl]
    simp only [ne_eq, not_true_eq_false, false_and, if_false, reduceIte, hns1]
    refine ⟨_, _, rfl, rfl, ?_, ?_⟩
    · rw [List.getLast?_concat]
    · intro pl2 hpl2
      rw [hpl] at hpl2
      obtain rfl := Option.some.inj hpl2
      rw [hsll]
      simp only [List.length_append, List.length_cons, List.length_nil]
      have hidx2 : ns1.dropLast.length + 1 + 1 - 2 = ns1.dropLast.length := by omega
      rw [hidx2, List.getElem?_append_left (by simp), List.getElem?_concat_length]

/-- C3 witness: an appended SLEEP at a concrete input is normalized to the
previous end-time and flags the preceding note. -/
theorem sleep_normalize_c3_witness :
    ∃ st1 v1, commitNote sleepZ 0 stW { vocalW with notes := [noteZ] } =
        .ok (true, st1, v1) ∧
      v1.notes = setLastLineBreak [noteZ] ++ [{ sleepZ with begin := 0, end_ := 0 }] ∧
      v1.notes.getLast? = some { sleepZ with begin := 0, end_ := 0 } ∧
      v1.notes[v1.notes.length - 2]? = some { noteZ with lineBreak := true } := by
  obtain ⟨a, b, h1, h2, h3, h4⟩ :=
    (sleep_normalize_c3 stW { vocalW with notes := [noteZ] } sleepZ 0 rfl).2
      [noteZ] rfl (by decide)
  exact ⟨a, b, h1, h2, h3, h4 noteZ rfl⟩

/-- C3 counterexample: a SLEEP line reaching an empty note sequence is not
always dropped: after a dropped leading sleep has advanced the resolved
end-time, a second sleep with an earlier begin raises the fatal first-note
error instead of being dropped. -/
theorem sleep_normalize_c3_counterexample :
    stepCont c3r1 = true ∧
    (stepVoc c3r1 vocalW).notes = [] ∧
    c3r2 = .error .firstNoteNegative := by
  norm_num +decide [c3r1, c3r2, lineD, lineE, stR, stW, songW, vocalW,
    VocalTrack.init, TrackName.LEAD_VOCAL, txtParseNote, txtParseSleepBody,
    commitNote, recoverOverlap, adjustPrev, collapseSleep, twoBack, tsTime,
    bpmStep, addBPM, readNat, readNatNoWs, readInt, digitSpan, digitsToNat,
    digitVal, skipWs, charToType, stepSt, stepVoc, stepCont, setLastLineBreak,
    overlapMsg]

/-- C5: in relative mode, for the first note line of a track (empty note
sequence, shift accumulator still at its initial value 0), the line's
timestamps are resolved from its raw tick, and `m_relativeShift` ends up
seeded with exactly that raw tick, for both plain note lines and SLEEP
lines. -/
theorem relative_seed_c5 (st : ParserSt) (vocal : VocalTrack)
    (hrel : st.m_relative = true) (hshift : st.m_relativeShift = 0)
    (hempty : vocal.notes = []) :
    (∀ t rest ts0 len pitch r1 r2 r3, t ≠ NoteType.SLEEP →
      readNat rest = some (ts0, r1) → readNat r1 = some (len, r2) →
      readInt r2 = some (pitch, r3) →
      ¬ tsTime st.bpms ts0 < st.m_prevtime →
      ∃ st1 v1, txtParseNormBody t rest st vocal = .ok (true, st1, v1) ∧
        st1.m_relativeShift = ts0 ∧ st1.m_prevts = ts0 ∧
        v1.notes.map Note.begin = [tsTime st.bpms ts0]) ∧
    (∀ rest ts0 end0 r1 r2,
      readNat rest = some (ts0, r1) → readNat r1 = some (end0, r2) →
      ¬ tsTime st.bpms ts0 < st.m_prevtime →
      ∃ st1, txtParseSleepBody rest st vocal = .ok (true, st1, vocal) ∧
        st1.m_relativeShift = ts0 ∧ st1.m_prevts = ts0) := by
  constructor
  · intro t rest ts0 len pitch r1 r2 r3 ht h1 h2 h3 hnov
    simp only [txtParseNormBody, h1, h2, h3, hrel, if_true, hshift, Nat.add_zero]
    simp only [commitNote, hrel, true_and, ht, ne_eq, not_false_eq_true]
    rw [if_pos hempty]
    simp only [hnov, if_false, Bool.true_eq_false, reduceIte,
      apply_ite VocalTrack.notes, ite_self]
    refine ⟨_, _, rfl, rfl, rfl, ?_⟩
    rw [hempty]
    rfl
  · intro rest ts0 end0 r1 r2 h1 h2 hnov
    simp only [txtParseSleepBody, h1, h2, hrel, if_true, hshift, Nat.add_zero]
    simp only [commitNote, hrel, true_and, ne_eq, not_true_eq_false, false_and,
      if_false]
    rw [if_pos hempty]
    simp only [hnov, if_false, Bool.true_eq_false, reduceIte]
    rw [if_pos hempty]
    exact ⟨_, rfl, rfl, rfl⟩

/-- C5 witness: seeding at concrete first note and first sleep lines. -/
theorem relative_seed_c5_witness :
    (∃ st1 v1, txtParseNormBody NoteType.NORMAL (" 5 2 3 x".toList) stC5 vocalW =
        .ok (true, st1, v1) ∧
      st1.m_relativeShift = 5 ∧ st1.m_prevts = 5 ∧
      v1.notes.map Note.begin = [tsTime stC5.bpms 5]) ∧
    (∃ st1, txtParseSleepBody (" 7 9".toList) stC5 vocalW = .ok (true, st1, vocalW) ∧
      st1.m_relativeShift = 7 ∧ st1.m_prevts = 7) :=
  ⟨(relative_seed_c5 stC5 vocalW rfl rfl rfl).1 NoteType.NORMAL
     (" 5 2 3 x".toList) 5 2 3 (" 2 3 x".toList) (" 3 x".toList) (" x".toList)
     (by decide) (by decide) (by decide) (by decide) (by decide),
   (relative_seed_c5 stC5 vocalW rfl rfl rfl).2 (" 7 9".toList) 7 9
     (" 9".toList) [] (by decide) (by decide) (by decide)⟩

theorem nls_dropLast_concat (l : List Note) (x : Note)
    (h : noLeadingSleep l = true)
    (h1 : 1 < l.length ∨ x.type ≠ NoteType.SLEEP) :
    noLeadingSleep (l.dropLast ++ [x]) = true := by
  cases l with
  | nil =>
    cases h1 with
    | inl h2 => simp at h2
    | inr h2 => simpa [noLeadingSleep] using h2
  | cons a r =>
    cases r with
    | nil =>
      cases h1 with
      | inl h2 => simp at h2
      | inr h2 => simpa [noLeadingSleep] using h2
    | cons b r2 => exact h

theorem nls_concat (l : List Note) (y : Note) (h : noLeadingSleep l = true)
    (h1 : l = [] → y.type ≠ NoteType.SLEEP) :
    noLeadingSleep (l ++ [y]) = true := by
  cases l with
  | nil => simpa [noLeadingSleep] using h1 rfl
  | cons a r => exact h

theorem nls_single (l : List Note) (pl : Note) (h : noLeadingSleep l = true)
    (hlen : l.length = 1) (hl : l.getLast? = some pl) :
    pl.type ≠ NoteType.SLEEP := by
  obtain ⟨a, rfl⟩ := List.length_eq_one.mp hlen
  obtain rfl : a = pl := by simpa using hl
  simpa [noLeadingSleep] using h

theorem twoBack_none_length {ns : List Note} (h : twoBack ns = none) :
    ns.length < 2 := by
  by_contra hc
  push_neg at hc
  unfold twoBack at h
  rw [if_pos hc, List.get?_eq_none] at h
  omega

theorem twoBack_some_length {ns : List Note} {p2 : Note}
    (h : twoBack ns = some p2) : 2 ≤ ns.length := by
  by_contra hc
  unfold twoBack at h
  rw [if_neg hc] at h
  exact Option.noConfusion h

theorem commitNote_tail (n0 : Note) (ts : ℕ) (st : ParserSt)
    (vocal : VocalTrack) (ns1 : List Note) (proceed : Bool)
    (hres : (if tsTime st.bpms ts < st.m_prevtime
             then recoverOverlap vocal.notes (tsTime st.bpms ts)
             else Except.ok (vocal.notes, true)) = .ok (ns1, proceed))
    (hinv : noLeadingSleep ns1 = true) :
    lookbackSafe (commitNote n0 ts st vocal) := by
  simp only [commitNote, apply_ite ParserSt.m_prevtime, ite_self, hres]
  by_cases hpr : proceed = false
  · rw [if_pos hpr]
    simpa [lookbackSafe] using hinv
  · rw [if_neg hpr]
    simp only [apply_ite VocalTrack.notes, ite_self]
    by_cases hsl : n0.type = NoteType.SLEEP
    · simp only [hsl, reduceIte]
      by_cases hvn : ns1 = []
      · rw [if_pos hvn]
        simpa [lookbackSafe] using hinv
      · rw [if_neg hvn]
        obtain ⟨pl, hpl⟩ : ∃ pl, ns1.getLast? = some pl := by
          cases hx : ns1.getLast? with
          | none => exact absurd (List.getLast?_eq_none_iff.mp hx) hvn
          | some x => exact ⟨x, rfl⟩
        rw [setLastLineBreak_getLast ns1 pl hpl]
        simp only [lookbackSafe]
        apply nls_concat
        · apply nls_dropLast_concat ns1 _ hinv
          rcases Nat.lt_or_ge 1 ns1.length with h2 | h2
          · exact Or.inl h2
          · have hlen1 : ns1.length = 1 := by
              have := List.length_pos.mpr hvn
              omega
            exact Or.inr (by simpa using nls_single ns1 pl hinv hlen1 hpl)
        · intro hh
          exact absurd hh (by simp)
    · simp only [hsl, reduceIte, if_false]
      simp only [lookbackSafe]
      apply nls_concat ns1 _ hinv
      intro _
      simpa using hsl

theorem commitNote_lookback (n0 : Note) (ts : ℕ) (st : ParserSt)
    (vocal : VocalTrack) (h : noLeadingSleep vocal.notes = true) :
    lookbackSafe (commitNote n0 ts st vocal) := by
  by_cases hov : tsTime st.bpms ts < st.m_prevtime
  · cases hl : vocal.notes.getLast? with
    | none =>
      have hx := List.getLast?_eq_none_iff.mp hl
      simp only [commitNote, apply_ite ParserSt.m_prevtime, ite_self, hov,
        if_true, hx, recoverOverlap_nil]
      simp [lookbackSafe]
    | some p =>
      have hne : vocal.notes ≠ [] := by
        intro hh
        rw [hh] at hl
        exact Option.noConfusion hl
      by_cases hps : p.type = NoteType.SLEEP
      · cases htb : twoBack vocal.notes with
        | none =>
          have hlt := twoBack_none_length htb
          have hpos := List.length_pos.mpr hne
          have hlen1 : vocal.notes.length = 1 := by omega
          exact absurd hps (nls_single _ p h hlen1 hl)
        | some p2 =>
          have hadj : adjustPrev vocal.notes p (tsTime st.bpms ts) =
              .ok (collapseSleep p p2 (tsTime st.bpms ts)) := by
            simp [adjustPrev, hps, htb]
          have hlen2 : 2 ≤ vocal.notes.length := twoBack_some_length htb
          by_cases hle :
              (collapseSleep p p2 (tsTime st.bpms ts)).begin ≤ tsTime st.bpms ts
          · exact commitNote_tail n0 ts st vocal _ _
              (by rw [if_pos hov]
                  exact recoverOverlap_trim vocal.notes p _ _ hl hadj hle)
              (nls_dropLast_concat _ _ h (Or.inl (by omega)))
          · exact commitNote_tail n0 ts st vocal _ _
              (by rw [if_pos hov]
                  exact recoverOverlap_skip vocal.notes p _ _ hl hadj hle)
              (nls_dropLast_concat _ _ h (Or.inl (by omega)))
      · have hadj : adjustPrev vocal.notes p (tsTime st.bpms ts) = .ok p := by
          simp [adjustPrev, hps]
        by_cases hle : p.begin ≤ tsTime st.bpms ts
        · exact commitNote_tail n0 ts st vocal _ _
            (by rw [if_pos hov]
                exact recoverOverlap_trim vocal.notes p _ _ hl hadj hle)
            (nls_dropLast_concat _ _ h (Or.inr (by simpa using hps)))
        · exact commitNote_tail n0 ts st vocal _ _
            (by rw [if_pos hov]
                exact recoverOverlap_skip vocal.notes p _ _ hl hadj hle)
            (nls_dropLast_concat _ _ h (Or.inr (by simpa using hps)))
  · exact commitNote_tail n0 ts st vocal vocal.notes true (by rw [if_neg hov]) h

theorem txtParseSleepBody_lookback (rest : List Char) (st : ParserSt)
    (vocal : VocalTrack) (h : noLeadingSleep vocal.notes = true) :
    lookbackSafe (txtParseSleepBody rest st vocal) := by
  unfold txtParseSleepBody
  exact commitNote_lookback _ _ _ _ h

theorem txtParseNormBody_lookback (t : NoteType) (rest : List Char)
    (st : ParserSt) (vocal : VocalTrack) (h : noLeadingSleep vocal.notes = true) :
    lookbackSafe (txtParseNormBody t rest st vocal) := by
  cases hr1 : readNat rest with
  | none => simp [txtParseNormBody, hr1, lookbackSafe]
  | some q1 =>
    obtain ⟨ts0, r1⟩ := q1
    cases hr2 : readNat r1 with
    | none => simp [txtParseNormBody, hr1, hr2, lookbackSafe]
    | some q2 =>
      obtain ⟨len, r2⟩ := q2
      cases hr3 : readInt r2 with
      | none => simp [txtParseNormBody, hr1, hr2, hr3, lookbackSafe]
      | some q3 =>
        obtain ⟨pitch, r3⟩ := q3
        simp only [txtParseNormBody, hr1, hr2, hr3]
        exact commitNote_lookback _ _ _ _ h

/-- C6: from any state whose note sequence does not start with a SLEEP (true
initially and preserved by every step), one parse step never performs the
out-of-bounds two-back inspection, and the resulting note sequence again does
not start with a SLEEP — so the two-positions-back inspection only ever
touches existing elements. -/
theorem txtParseNote_lookback_c6 (line : List Char) (st : ParserSt)
    (vocal : VocalTrack) (h : noLeadingSleep vocal.notes = true) :
    lookbackSafe (txtParseNote line st vocal) := by
  unfold txtParseNote
  by_cases h0 : line = [] ∨ line = ['\r']
  · rw [if_pos h0]
    simpa [lookbackSafe] using h
  · rw [if_neg h0]
    by_cases h1 : line.head? = some '#'
    · simp [h1, lookbackSafe]
    · simp only [h1, if_false, reduceIte]
      cases hstr : (if line.getLast? = some '\r' then line.dropLast else line) with
      | nil => simp [lookbackSafe]
      | cons c rest =>
        show lookbackSafe (if c = 'E' then .ok (false, st, vocal) else _)
        by_cases hE : c = 'E'
        · simpa [hE, lookbackSafe] using h
        · rw [if_neg hE]
          by_cases hB : c = 'B'
          · rw [if_pos hB]
            cases hr1 : readNat rest with
            | none => simp [lookbackSafe]
            | some q1 =>
              obtain ⟨bts, r1⟩ := q1
              cases hr2 : readRat r1 with
              | none => simp [hr2, lookbackSafe]
              | some q2 =>
                obtain ⟨b, r2⟩ := q2
                simpa [hr2, lookbackSafe] using h
          · rw [if_neg hB]
            by_cases hP : c = 'P'
            · simpa [hP, lookbackSafe] using h
            · rw [if_neg hP]
              cases hct : charToType c with
              | none => simp [lookbackSafe]
              | some t =>
                show lookbackSafe (if t = NoteType.SLEEP
                  then txtParseSleepBody rest st vocal
                  else txtParseNormBody t rest st vocal)
                by_cases hts : t = NoteType.SLEEP
                · rw [if_pos hts]
                  exact txtParseSleepBody_lookback rest st vocal h
                · rw [if_neg hts]
                  exact txtParseNormBody_lookback t rest st vocal h

/-- C6 witness: safety of a concrete step from a concrete invariant-satisfying
state. -/
theorem txtParseNote_lookback_c6_witness :
    lookbackSafe (txtParseNote lineA stR vocalW) :=
  txtParseNote_lookback_c6 lineA stR vocalW rfl
